import Mathlib

/-!
Verification of the quantum task-orchestration service.

The development shallowly embeds the core of the repository:
* `app/core/models.py` — the `Task` row (id, status, result, created_at,
  updated_at) and the `TaskStatus` enum;
* `app/temporal/activities.py` — `execute_quantum_circuit_activity`, one
  attempt: reload the task, parse, execute, write the terminal outcome; on
  any exception the handler re-queries the row and, when present, writes
  `status = FAILED` (leaving `result` untouched) and re-raises;
* `app/temporal/workflows.py` — `QuantumCircuitWorkflow.run` drives the
  activity under `RetryPolicy(maximum_attempts=3)` with no
  `non_retryable_error_types`, so every raised error is retried until the
  attempt cap;
* `app/api/tasks.py` — the `create_task`, `get_task`, `list_tasks` and
  `delete_task` handlers;
* `app/quantum/execution.py` — `NUM_SHOTS` and the signatures of
  `parse_qasm3` / `execute_circuit`, whose internals (Qiskit) are treated as
  external capabilities and are modelled as oracles: each attempt carries a
  `ParseOutcome` (parse succeeded or raised `ValueError`) and an
  `ExecOutcome` (counts returned, or `RuntimeError`).

Timestamps are `Nat`; the SQLAlchemy `onupdate` hook on `updated_at` is made
explicit by passing the mutation time `now` to each write. Task ids are
`Nat` (abstract identifiers). The store is the list of rows in insertion
order; `db.query(Task).filter(Task.id == tid).first()` is `find?` on id.
-/

namespace QOrch

/-- The status enum `TaskStatus` from `app/core/models.py`: PENDING, COMPLETED, FAILED. -/
inductive TaskStatus
  | pending
  | completed
  | failed
deriving DecidableEq, Repr

/-- Measurement counts: the JSON `result` column, a mapping from
outcome-label to integer count (`Dict[str, int]`). -/
abbrev Counts := List (String × Nat)

/-- The `tasks` row from `app/core/models.py`. -/
structure Task where
  id : Nat
  status : TaskStatus
  result : Option Counts
  created_at : Nat
  updated_at : Nat
deriving DecidableEq, Repr

/-- The task store: rows in insertion order. -/
abbrev Store := List Task

/-- Row lookup `db.query(Task).filter(Task.id == tid).first()`. -/
def findTask (db : Store) (tid : Nat) : Option Task :=
  db.find? (fun t => t.id == tid)

/-- Mutate the (first) row with the given id, leaving the rest alone; a
no-op when no row has the id.  This is `.first()` followed by attribute
assignment and `db.commit()`. -/
def updateFirst (tid : Nat) (f : Task → Task) : Store → Store
  | [] => []
  | t :: rest => if t.id == tid then f t :: rest else t :: updateFirst tid f rest

/-- Row removal `db.delete(task); db.commit()` for the row found by id. -/
def removeFirst (tid : Nat) : Store → Store
  | [] => []
  | t :: rest => if t.id == tid then rest else t :: removeFirst tid rest

/-- A fresh row as built by `Task(status=TaskStatus.PENDING)` with the
column defaults of `app/core/models.py`: pending, `result` NULL, both
timestamps set at creation. -/
def newTask (tid now : Nat) : Task :=
  { id := tid, status := TaskStatus.pending, result := none,
    created_at := now, updated_at := now }

/-- The constant `NUM_SHOTS` from `app/quantum/execution.py`. -/
def NUM_SHOTS : Nat := 1024

/-- Sum of all counts in a result mapping. -/
def sumCounts (c : Counts) : Nat := (c.map Prod.snd).sum

/-- Outcome of `parse_qasm3` (external capability): a circuit, or a
raised `ValueError`. -/
inductive ParseOutcome
  | ok
  | err
deriving DecidableEq, Repr

/-- Outcome of `execute_circuit` (external capability): the counts
dictionary, or a raised `RuntimeError`. -/
inductive ExecOutcome
  | ok (counts : Counts)
  | err
deriving DecidableEq, Repr

/-- What one activity invocation produces for its caller: the returned
counts, or a raised exception (any exception propagates after the failure
handler ran). -/
inductive AttemptResult
  | success (counts : Counts)
  | failure
deriving DecidableEq, Repr

/-- The success write of `execute_quantum_circuit_activity`
(`task.status = TaskStatus.COMPLETED; task.result = counts; db.commit()`);
the `onupdate` hook stamps `updated_at`. -/
def markCompleted (counts : Counts) (now : Nat) (t : Task) : Task :=
  { t with status := TaskStatus.completed, result := some counts, updated_at := now }

/-- The failure write of `execute_quantum_circuit_activity`
(`task.status = TaskStatus.FAILED; db.commit()`): only `status` is
assigned, `result` is not touched; the `onupdate` hook stamps
`updated_at`. -/
def markFailed (now : Nat) (t : Task) : Task :=
  { t with status := TaskStatus.failed, updated_at := now }

/-- The exception handler of `execute_quantum_circuit_activity`: re-query
the row by id and, `if task:`, write FAILED; with no matching row nothing
happens. -/
def activityMarkFailed (db : Store) (tid now : Nat) : Store :=
  updateFirst tid (markFailed now) db

/-- One attempt, `execute_quantum_circuit_activity` from
`app/temporal/activities.py`:
reload the task by id (raise `ValueError` when absent), parse the QASM3
payload, execute the circuit with `NUM_SHOTS` shots, and write the
terminal outcome.  Every raised exception reaches the handler, which
re-queries the row and writes FAILED when it is still present, then the
exception propagates (`raise`). -/
def execute_quantum_circuit_activity (db : Store) (tid : Nat)
    (parse : ParseOutcome) (ex : ExecOutcome) (now : Nat) :
    Store × AttemptResult :=
  match findTask db tid with
  | none => (activityMarkFailed db tid now, AttemptResult.failure)
  | some _ =>
    match parse with
    | ParseOutcome.err => (activityMarkFailed db tid now, AttemptResult.failure)
    | ParseOutcome.ok =>
      match ex with
      | ExecOutcome.err => (activityMarkFailed db tid now, AttemptResult.failure)
      | ExecOutcome.ok counts =>
        (updateFirst tid (markCompleted counts now) db, AttemptResult.success counts)

/-- The external-world data one attempt consumes: the parse and execute
oracle outcomes and the wall-clock time of the attempt's writes. -/
structure AttemptOracle where
  parse : ParseOutcome
  exec : ExecOutcome
  now : Nat
deriving DecidableEq, Repr

/-- The attempt cap `maximum_attempts=3` of the `RetryPolicy` in
`app/temporal/workflows.py`. -/
def MAX_ATTEMPTS : Nat := 3

/-- The retry loop of `QuantumCircuitWorkflow.run`: run attempts until one
returns instead of raising, or the attempt budget is exhausted.  The
`RetryPolicy` names no `non_retryable_error_types`, so a raising attempt is
always followed by another while budget remains.  Returns the store, whether
the run succeeded, and how many attempts were performed. -/
def runAttempts (tid : Nat) : Store → List AttemptOracle → Nat → Store × Bool × Nat
  | db, _, 0 => (db, false, 0)
  | db, [], _ + 1 => (db, false, 0)
  | db, o :: os, n + 1 =>
    match execute_quantum_circuit_activity db tid o.parse o.exec o.now with
    | (db2, AttemptResult.success _) => (db2, true, 1)
    | (db2, AttemptResult.failure) =>
      match runAttempts tid db2 os n with
      | (db3, ok, k) => (db3, ok, k + 1)

/-- One durable run for a task: the retry loop at the configured cap of 3
attempts. -/
def workflowRun (tid : Nat) (db : Store) (oracles : List AttemptOracle) :
    Store × Bool × Nat :=
  runAttempts tid db oracles MAX_ATTEMPTS

/-! ### API layer, `app/api/tasks.py` -/

/-- The body of the 201 response of `POST /tasks`. -/
structure TaskResponse where
  task_id : Nat
  message : String
deriving DecidableEq, Repr

/-- The handler `create_task` from `app/api/tasks.py`: insert a pending row and commit,
then try to start the workflow keyed by the task id.  `startOk` is whether
`client.start_workflow` succeeds; when it raises, the exception is caught,
logged, and deliberately not re-raised ("the task will remain in pending
state"), and the same success response is returned either way. -/
def create_task (db : Store) (tid now : Nat) (startOk : Bool) :
    Store × TaskResponse :=
  let db2 := db ++ [newTask tid now]
  if startOk then
    (db2, { task_id := tid, message := "Task submitted successfully." })
  else
    (db2, { task_id := tid, message := "Task submitted successfully." })

/-- What `GET /tasks/{id}` answers. -/
inductive GetResult
  | notFound
  | ok (st : TaskStatus) (result : Option Counts) (message : Option String)
deriving DecidableEq, Repr

/-- The handler `get_task` from `app/api/tasks.py`: 404 when the row is absent;
result only on COMPLETED; a human-readable message on FAILED and
PENDING. -/
def get_task (db : Store) (tid : Nat) : GetResult :=
  match findTask db tid with
  | none => GetResult.notFound
  | some t =>
    match t.status with
    | TaskStatus.completed => GetResult.ok t.status t.result none
    | TaskStatus.failed => GetResult.ok t.status none (some "Task execution failed.")
    | TaskStatus.pending => GetResult.ok t.status none (some "Task is still in progress.")

/-- The default of `limit: int = Query(50, ge=1, le=100)`. -/
def LIMIT_DEFAULT : Int := 50

/-- FastAPI's validation of the `limit` query parameter:
`Query(50, ge=1, le=100)` accepts exactly `1 ≤ limit ≤ 100`. -/
def limit_ok (limit : Int) : Bool :=
  decide (1 ≤ limit) && decide (limit ≤ 100)

/-- FastAPI's validation of the `offset` query parameter:
`Query(0, ge=0)` accepts exactly `0 ≤ offset`. -/
def offset_ok (offset : Int) : Bool :=
  decide (0 ≤ offset)

/-- The status filter of `list_tasks`: with no filter every row matches,
with `?status=s` exactly the rows of that status match. -/
def matchesFilter (sf : Option TaskStatus) (t : Task) : Bool :=
  match sf with
  | none => true
  | some s => t.status == s

/-- Newest-first comparator for `order_by(Task.created_at.desc())`. -/
def createdDesc (a b : Task) : Bool :=
  decide (b.created_at ≤ a.created_at)

/-- The handler `list_tasks` from `app/api/tasks.py` (after query validation): filter
by status when given, take `total = query.count()` before pagination, then
order newest-first and apply `offset`/`limit`.  Returns the page and the
total. -/
def list_tasks (db : Store) (sf : Option TaskStatus) (limit offset : Nat) :
    List Task × Nat :=
  let q := db.filter (matchesFilter sf)
  (((q.mergeSort createdDesc).drop offset).take limit, q.length)

/-- What `DELETE /tasks/{id}` answers: 404, or success together with
whether a workflow cancellation was attempted first. -/
inductive DeleteOutcome
  | notFound
  | deleted (cancelAttempted : Bool)
deriving DecidableEq, Repr

/-- The handler `delete_task` from `app/api/tasks.py`: 404 when the row is absent;
when the row's status is PENDING, first attempt `handle.cancel()` on the
workflow keyed by the task id — every exception of that attempt is caught
and logged (`cancelOk` is whether the cancellation succeeded) — and in
every found case the row is then removed and success returned. -/
def delete_task (db : Store) (tid : Nat) (cancelOk : Bool) :
    Store × DeleteOutcome :=
  match findTask db tid with
  | none => (db, DeleteOutcome.notFound)
  | some t =>
    if t.status == TaskStatus.pending then
      match cancelOk with
      | true => (removeFirst tid db, DeleteOutcome.deleted true)
      | false => (removeFirst tid db, DeleteOutcome.deleted true)
    else
      (removeFirst tid db, DeleteOutcome.deleted false)

/-! ### Invariant predicates used by the claims -/

/-- The spec's result/status invariant:
`result != null ⟺ status == Completed`. -/
def resultInv (t : Task) : Bool :=
  t.result.isSome == (t.status == TaskStatus.completed)

/-- Strengthened per-row invariant holding while a run for task `tid` is in
progress: the result/status invariant, and the row of the running task is
not (yet) COMPLETED — true at run start, where the row was just created
PENDING, and preserved by every failing attempt. -/
def taskInv (tid : Nat) (t : Task) : Bool :=
  resultInv t && (t.id != tid || t.status != TaskStatus.completed)

/-- A COMPLETED row carries a result whose counts sum to `NUM_SHOTS`;
vacuous for other rows. -/
def completedSumOk (t : Task) : Bool :=
  match t.status, t.result with
  | TaskStatus.completed, some c => sumCounts c == NUM_SHOTS
  | TaskStatus.completed, none => false
  | _, _ => true

/-- The claim's assumption on the External Executor: whenever the compute
oracle succeeds, its counts sum to the requested `NUM_SHOTS` shots. -/
def execRespectsShots (o : AttemptOracle) : Bool :=
  match o.exec with
  | ExecOutcome.ok c => sumCounts c == NUM_SHOTS
  | ExecOutcome.err => true

/-- No row of the store carries the given id. -/
def idAbsent (db : Store) (tid : Nat) : Bool :=
  db.all (fun t => t.id != tid)

/-- Row ids are pairwise distinct (`id` is the primary key). -/
def idsUnique : Store → Bool
  | [] => true
  | t :: rest => rest.all (fun u => u.id != t.id) && idsUnique rest

/-! ### Helper lemmas -/

theorem all_mono {P Q : Task → Bool} (h : ∀ t, P t = true → Q t = true) :
    ∀ {db : Store}, db.all P = true → db.all Q = true := by
  intro db hdb
  simp only [List.all_eq_true] at hdb ⊢
  exact fun t ht => h t (hdb t ht)

theorem all_updateFirst {P Q : Task → Bool} {tid : Nat} {f : Task → Task}
    (h1 : ∀ t, P t = true → Q t = true)
    (h2 : ∀ t, (t.id == tid) = true → P t = true → Q (f t) = true) :
    ∀ {db : Store}, db.all P = true → (updateFirst tid f db).all Q = true := by
  intro db
  induction db with
  | nil => intro _; simp [updateFirst]
  | cons t rest ih =>
    intro hall
    simp only [List.all_cons, Bool.and_eq_true] at hall
    by_cases hid : (t.id == tid) = true
    · simp only [updateFirst, if_pos hid, List.all_cons, Bool.and_eq_true]
      exact ⟨h2 t hid hall.1, all_mono h1 hall.2⟩
    · simp only [updateFirst, if_neg hid, List.all_cons, Bool.and_eq_true]
      exact ⟨h1 t hall.1, ih hall.2⟩

theorem map_result_updateFirst {tid : Nat} {f : Task → Task}
    (h : ∀ t, (f t).result = t.result) :
    ∀ db : Store, (updateFirst tid f db).map Task.result = db.map Task.result := by
  intro db
  induction db with
  | nil => rfl
  | cons t rest ih =>
    by_cases hid : (t.id == tid) = true
    · simp [updateFirst, hid, h t]
    · simp [updateFirst, hid, ih]

theorem updateFirst_of_absent {tid : Nat} {f : Task → Task} :
    ∀ {db : Store}, idAbsent db tid = true → updateFirst tid f db = db := by
  intro db
  induction db with
  | nil => intro _; rfl
  | cons t rest ih =>
    intro h
    simp only [idAbsent, List.all_cons, Bool.and_eq_true] at h
    have hid : ¬(t.id == tid) = true := by
      have h1 := h.1; simp only [bne_iff_ne, ne_eq] at h1; simp [h1]
    have h2 : idAbsent rest tid = true := h.2
    simp only [updateFirst, if_neg hid]
    rw [ih h2]

theorem findTask_of_absent {db : Store} {tid : Nat} (h : idAbsent db tid = true) :
    findTask db tid = none := by
  simp only [findTask, List.find?_eq_none]
  simp only [idAbsent, List.all_eq_true] at h
  intro t ht
  have := h t ht
  simp only [bne_iff_ne, ne_eq] at this
  simp [this]

theorem findTask_append_absent {tid : Nat} {u : Task} (hu : (u.id == tid) = true) :
    ∀ {db : Store}, idAbsent db tid = true → findTask (db ++ [u]) tid = some u := by
  intro db
  induction db with
  | nil => intro _; simp [findTask, List.find?, hu]
  | cons t rest ih =>
    intro h
    simp only [idAbsent, List.all_cons, Bool.and_eq_true] at h
    have hid : ¬(t.id == tid) = true := by
      have h1 := h.1; simp only [bne_iff_ne, ne_eq] at h1; simp [h1]
    have h2 : idAbsent rest tid = true := h.2
    have hfalse : (t.id == tid) = false := by simpa using hid
    show List.find? (fun v => v.id == tid) (t :: (rest ++ [u])) = some u
    simp only [List.find?, hfalse]
    exact ih h2

theorem findTask_removeFirst {tid : Nat} :
    ∀ {db : Store}, idsUnique db = true → findTask (removeFirst tid db) tid = none := by
  intro db
  induction db with
  | nil => intro _; rfl
  | cons t rest ih =>
    intro h
    simp only [idsUnique, Bool.and_eq_true] at h
    by_cases hid : (t.id == tid) = true
    · have htid : t.id = tid := by simpa using hid
      simp only [removeFirst, if_pos hid]
      simp only [findTask, List.find?_eq_none]
      intro u hu
      have hne := (List.all_eq_true.mp h.1) u hu
      simp only [bne_iff_ne, ne_eq] at hne
      simp [htid ▸ hne]
    · simp only [removeFirst, if_neg hid]
      have hfalse : (t.id == tid) = false := by simpa using hid
      show List.find? (fun v => v.id == tid) (t :: removeFirst tid rest) = none
      simp only [List.find?, hfalse]
      exact ih h.2

theorem taskInv_imp_resultInv (tid : Nat) :
    ∀ t, taskInv tid t = true → resultInv t = true := by
  intro t h
  simp only [taskInv, Bool.and_eq_true] at h
  exact h.1

theorem markFailed_taskInv (tid now : Nat) :
    ∀ t, (t.id == tid) = true → taskInv tid t = true →
      taskInv tid (markFailed now t) = true := by
  intro t hid h
  cases t with
  | mk i st res c u =>
    cases st <;> cases res <;> simp_all [taskInv, resultInv, markFailed]

theorem activityMarkFailed_taskInv (tid now : Nat) (db : Store)
    (h : db.all (taskInv tid) = true) :
    (activityMarkFailed db tid now).all (taskInv tid) = true :=
  all_updateFirst (fun _ ht => ht) (markFailed_taskInv tid now) h

theorem markCompleted_resultInv (counts : Counts) (now : Nat) :
    ∀ t, resultInv (markCompleted counts now t) = true := by
  intro t
  simp [resultInv, markCompleted]

theorem markFailed_completedSumOk (now : Nat) :
    ∀ t, completedSumOk (markFailed now t) = true := by
  intro t
  cases hr : t.result <;> simp [completedSumOk, markFailed, hr]

theorem activityMarkFailed_completedSumOk (tid now : Nat) (db : Store)
    (h : db.all completedSumOk = true) :
    (activityMarkFailed db tid now).all completedSumOk = true :=
  all_updateFirst (fun _ ht => ht)
    (fun t _ _ => markFailed_completedSumOk now t) h

theorem markCompleted_completedSumOk (counts : Counts) (now : Nat)
    (hsum : (sumCounts counts == NUM_SHOTS) = true) :
    ∀ t, completedSumOk (markCompleted counts now t) = true := by
  intro t
  simp [completedSumOk, markCompleted, hsum]

/-- Every attempt performs exactly one of the two terminal writes: the
handler's FAILED write (with a raised exception), or the success write of
the counts produced by the compute oracle. -/
theorem activity_shape (db : Store) (tid : Nat) (p : ParseOutcome)
    (e : ExecOutcome) (now : Nat) :
    execute_quantum_circuit_activity db tid p e now
        = (activityMarkFailed db tid now, AttemptResult.failure) ∨
    ∃ counts, e = ExecOutcome.ok counts ∧
      execute_quantum_circuit_activity db tid p e now
        = (updateFirst tid (markCompleted counts now) db,
           AttemptResult.success counts) := by
  cases hf : findTask db tid with
  | none => left; simp [execute_quantum_circuit_activity, hf]
  | some t =>
    cases p with
    | err => left; simp [execute_quantum_circuit_activity, hf]
    | ok =>
      cases e with
      | err => left; simp [execute_quantum_circuit_activity, hf]
      | ok counts =>
        right
        exact ⟨counts, rfl, by simp [execute_quantum_circuit_activity, hf]⟩

theorem runAttempts_failure_step (tid : Nat) (db db2 : Store)
    (o : AttemptOracle) (os : List AttemptOracle) (n : Nat)
    (hact : execute_quantum_circuit_activity db tid o.parse o.exec o.now
        = (db2, AttemptResult.failure)) :
    runAttempts tid db (o :: os) (n + 1)
      = ((runAttempts tid db2 os n).1, (runAttempts tid db2 os n).2.1,
         (runAttempts tid db2 os n).2.2 + 1) := by
  rcases hrec : runAttempts tid db2 os n with ⟨db3, ok, k⟩
  simp [runAttempts, hact, hrec]

theorem runAttempts_success_step (tid : Nat) (db db2 : Store)
    (counts : Counts) (o : AttemptOracle) (os : List AttemptOracle) (n : Nat)
    (hact : execute_quantum_circuit_activity db tid o.parse o.exec o.now
        = (db2, AttemptResult.success counts)) :
    runAttempts tid db (o :: os) (n + 1) = (db2, true, 1) := by
  simp [runAttempts, hact]

theorem runAttempts_all_resultInv (tid : Nat) :
    ∀ (oracles : List AttemptOracle) (n : Nat) (db : Store),
      db.all (taskInv tid) = true →
      (runAttempts tid db oracles n).1.all resultInv = true := by
  intro oracles
  induction oracles with
  | nil =>
    intro n db h
    cases n with
    | zero => simpa [runAttempts] using all_mono (taskInv_imp_resultInv tid) h
    | succ n => simpa [runAttempts] using all_mono (taskInv_imp_resultInv tid) h
  | cons o os ih =>
    intro n db h
    cases n with
    | zero => simpa [runAttempts] using all_mono (taskInv_imp_resultInv tid) h
    | succ n =>
      rcases activity_shape db tid o.parse o.exec o.now with hact | ⟨counts, _, hact⟩
      · rw [runAttempts_failure_step tid db _ o os n hact]
        exact ih n (activityMarkFailed db tid o.now)
          (activityMarkFailed_taskInv tid o.now db h)
      · rw [runAttempts_success_step tid db _ counts o os n hact]
        exact all_updateFirst (taskInv_imp_resultInv tid)
          (fun t _ _ => markCompleted_resultInv counts o.now t) h

theorem runAttempts_all_completedSumOk (tid : Nat) :
    ∀ (oracles : List AttemptOracle) (n : Nat) (db : Store),
      db.all completedSumOk = true →
      oracles.all execRespectsShots = true →
      (runAttempts tid db oracles n).1.all completedSumOk = true := by
  intro oracles
  induction oracles with
  | nil =>
    intro n db h _
    cases n with
    | zero => simpa [runAttempts] using h
    | succ n => simpa [runAttempts] using h
  | cons o os ih =>
    intro n db h hor
    simp only [List.all_cons, Bool.and_eq_true] at hor
    cases n with
    | zero => simpa [runAttempts] using h
    | succ n =>
      rcases activity_shape db tid o.parse o.exec o.now with hact | ⟨counts, he, hact⟩
      · rw [runAttempts_failure_step tid db _ o os n hact]
        exact ih n (activityMarkFailed db tid o.now)
          (activityMarkFailed_completedSumOk tid o.now db h) hor.2
      · rw [runAttempts_success_step tid db _ counts o os n hact]
        have hsum : (sumCounts counts == NUM_SHOTS) = true := by
          have h1 := hor.1
          rw [execRespectsShots, he] at h1
          exact h1
        exact all_updateFirst (fun _ ht => ht)
          (fun t _ _ => markCompleted_completedSumOk counts o.now hsum t) h

theorem one_le_attempts (tid : Nat) (db : Store) (o : AttemptOracle)
    (os : List AttemptOracle) (n : Nat) :
    1 ≤ (runAttempts tid db (o :: os) (n + 1)).2.2 := by
  rcases hact : execute_quantum_circuit_activity db tid o.parse o.exec o.now with ⟨db2, r⟩
  cases r with
  | success c => simp [runAttempts, hact]
  | failure =>
    rcases hrec : runAttempts tid db2 os n with ⟨db3, ok, k⟩
    simp [runAttempts, hact, hrec]

theorem list_tasks_def (db : Store) (sf : Option TaskStatus) (limit offset : Nat) :
    list_tasks db sf limit offset
      = ((((db.filter (matchesFilter sf)).mergeSort createdDesc).drop offset).take limit,
         (db.filter (matchesFilter sf)).length) := rfl

/-! ### Claims -/

/-- C1: for every task observable through the store, `result` is non-null
iff the status is `Completed` (so every `Failed` task has `result = null`),
and the success write is the only operation producing a non-null result.
Formally: a freshly created row satisfies the invariant; a whole durable
run (any oracle outcomes, the configured 3-attempt cap) maps a store whose
rows satisfy the invariant — and whose row for the running task is not yet
`Completed`, as at run start — to a store whose rows all satisfy it; and
the failure write never changes any row's `result` field. -/
theorem C1_result_iff_completed (db : Store) (tid : Nat)
    (oracles : List AttemptOracle) (now : Nat)
    (h : db.all (taskInv tid) = true) :
    resultInv (newTask tid now) = true ∧
    (workflowRun tid db oracles).1.all resultInv = true ∧
    (activityMarkFailed db tid now).map Task.result = db.map Task.result := by
  refine ⟨by simp [resultInv, newTask], ?_, ?_⟩
  · exact runAttempts_all_resultInv tid oracles MAX_ATTEMPTS db h
  · have hres : ∀ t, (markFailed now t).result = t.result := fun _ => rfl
    exact map_result_updateFirst hres db

theorem C1_witness :
    ([newTask 1 0].all (taskInv 1)) = true ∧
    ((workflowRun 1 [newTask 1 0]
      [AttemptOracle.mk ParseOutcome.err ExecOutcome.err 5,
       AttemptOracle.mk ParseOutcome.ok (ExecOutcome.ok [("00", 1024)]) 6]).1.all
        resultInv) = true := by
  refine ⟨by decide, ?_⟩
  exact (C1_result_iff_completed [newTask 1 0] 1
    [AttemptOracle.mk ParseOutcome.err ExecOutcome.err 5,
     AttemptOracle.mk ParseOutcome.ok (ExecOutcome.ok [("00", 1024)]) 6] 7
    (by decide)).2.1

/-- C2: the configured shot count is 1024, and under the claim's assumption
that every successful compute-oracle outcome sums to the requested
`NUM_SHOTS` shots, a whole durable run preserves "every `Completed` row
carries a result summing to `NUM_SHOTS`"; in particular every task that
reaches `Completed` through a run satisfies it. -/
theorem C2_completed_sum (db : Store) (tid : Nat)
    (oracles : List AttemptOracle)
    (h1 : db.all completedSumOk = true)
    (h2 : oracles.all execRespectsShots = true) :
    NUM_SHOTS = 1024 ∧
    (workflowRun tid db oracles).1.all completedSumOk = true :=
  ⟨rfl, runAttempts_all_completedSumOk tid oracles MAX_ATTEMPTS db h1 h2⟩

theorem C2_witness :
    ([newTask 1 0].all completedSumOk) = true ∧
    ([AttemptOracle.mk ParseOutcome.ok (ExecOutcome.ok [("00", 512), ("11", 512)]) 5].all
        execRespectsShots) = true ∧
    ((workflowRun 1 [newTask 1 0]
      [AttemptOracle.mk ParseOutcome.ok (ExecOutcome.ok [("00", 512), ("11", 512)]) 5]).1.all
        completedSumOk) = true := by
  refine ⟨by decide, by decide, ?_⟩
  exact (C2_completed_sum [newTask 1 0] 1
    [AttemptOracle.mk ParseOutcome.ok (ExecOutcome.ok [("00", 512), ("11", 512)]) 5]
    (by decide) (by decide)).2

/-- C9: a terminal write against a task id that no longer exists in the
store is a benign no-op — the handler's FAILED write is silently skipped
when the row is missing, the store is unchanged, and the attempt merely
reports its failure without a further error. -/
theorem C9_missing_row_noop (db : Store) (tid now : Nat)
    (p : ParseOutcome) (e : ExecOutcome)
    (h : idAbsent db tid = true) :
    activityMarkFailed db tid now = db ∧
    execute_quantum_circuit_activity db tid p e now
      = (db, AttemptResult.failure) := by
  have hup : activityMarkFailed db tid now = db := updateFirst_of_absent h
  have hf : findTask db tid = none := findTask_of_absent h
  exact ⟨hup, by simp [execute_quantum_circuit_activity, hf, hup]⟩

theorem C9_witness :
    idAbsent [newTask 2 0] 1 = true ∧
    activityMarkFailed [newTask 2 0] 1 9 = [newTask 2 0] ∧
    execute_quantum_circuit_activity [newTask 2 0] 1 ParseOutcome.ok
        ExecOutcome.err 9 = ([newTask 2 0], AttemptResult.failure) := by
  refine ⟨by decide, ?_, ?_⟩
  · exact (C9_missing_row_noop [newTask 2 0] 1 9 ParseOutcome.ok ExecOutcome.err
      (by decide)).1
  · exact (C9_missing_row_noop [newTask 2 0] 1 9 ParseOutcome.ok ExecOutcome.err
      (by decide)).2

/-- C10: the failure handler mutates only the `status` field (to `Failed`)
and the auto-maintained `updated_at`; every row of the store keeps its
`id`, `result` and `created_at`, and any row other than the task's is left
entirely unchanged. -/
theorem C10_failure_write_frame (db : Store) (tid now : Nat) :
    List.Forall₂ (fun t u =>
      u.id = t.id ∧ u.result = t.result ∧ u.created_at = t.created_at ∧
      (u = t ∨ (t.id = tid ∧ u.status = TaskStatus.failed ∧ u.updated_at = now)))
      db (activityMarkFailed db tid now) := by
  induction db with
  | nil => exact List.Forall₂.nil
  | cons t rest ih =>
    by_cases hid : (t.id == tid) = true
    · have htid : t.id = tid := by simpa using hid
      simp only [activityMarkFailed, updateFirst, if_pos hid]
      refine List.Forall₂.cons ⟨rfl, rfl, rfl, Or.inr ⟨htid, rfl, rfl⟩⟩ ?_
      exact List.forall₂_same.mpr (fun x _ => ⟨rfl, rfl, rfl, Or.inl rfl⟩)
    · simp only [activityMarkFailed, updateFirst, if_neg hid]
      exact List.Forall₂.cons ⟨rfl, rfl, rfl, Or.inl rfl⟩ ih

/-- C3 counterexample: the claim says a parse failure is terminal, so the
orchestrator performs no further attempts — but the activity raises a plain
`ValueError` and the `RetryPolicy(maximum_attempts=3)` names no
`non_retryable_error_types`, so the run here performs all 3 attempts even
though the parse oracle failed on the first one. -/
theorem C3_counterexample :
    (AttemptOracle.mk ParseOutcome.err ExecOutcome.err 5).parse
        = ParseOutcome.err ∧
    (workflowRun 1 [newTask 1 0]
      [AttemptOracle.mk ParseOutcome.err ExecOutcome.err 5,
       AttemptOracle.mk ParseOutcome.err ExecOutcome.err 6,
       AttemptOracle.mk ParseOutcome.err ExecOutcome.err 7]).2.2 = 3 := by
  decide

/-- C3 (amended): on a parse failure the attempt writes the (found) task to
`Failed`, leaves every row's `result` untouched, and raises — and the raised
failure is retryable: the orchestrator performs a further attempt whenever
attempt budget remains. -/
theorem C3_parse_failure_retried (db : Store) (tid now : Nat)
    (e : ExecOutcome) (o2 : AttemptOracle) (os : List AttemptOracle) (n : Nat)
    (h : (findTask db tid).isSome = true) :
    execute_quantum_circuit_activity db tid ParseOutcome.err e now
        = (activityMarkFailed db tid now, AttemptResult.failure) ∧
    (activityMarkFailed db tid now).map Task.result = db.map Task.result ∧
    2 ≤ (runAttempts tid db
          (AttemptOracle.mk ParseOutcome.err e now :: o2 :: os) (n + 2)).2.2 := by
  have hact : execute_quantum_circuit_activity db tid ParseOutcome.err e now
      = (activityMarkFailed db tid now, AttemptResult.failure) := by
    cases hf : findTask db tid with
    | none => rw [hf] at h; simp at h
    | some t => simp [execute_quantum_circuit_activity, hf]
  refine ⟨hact, ?_, ?_⟩
  · have hres : ∀ t, (markFailed now t).result = t.result := fun _ => rfl
    exact map_result_updateFirst hres db
  · rw [runAttempts_failure_step tid db _
      (AttemptOracle.mk ParseOutcome.err e now) (o2 :: os) (n + 1) hact]
    have h1 := one_le_attempts tid (activityMarkFailed db tid now) o2 os n
    show 2 ≤ (runAttempts tid (activityMarkFailed db tid now) (o2 :: os) (n + 1)).2.2 + 1
    omega

theorem C3_parse_failure_retried_witness :
    (findTask [newTask 1 0] 1).isSome = true ∧
    2 ≤ (runAttempts 1 [newTask 1 0]
          [AttemptOracle.mk ParseOutcome.err ExecOutcome.err 5,
           AttemptOracle.mk ParseOutcome.err ExecOutcome.err 6] 2).2.2 :=
  ⟨by decide,
   (C3_parse_failure_retried [newTask 1 0] 1 5 ExecOutcome.err
      (AttemptOracle.mk ParseOutcome.err ExecOutcome.err 6) [] 0 (by decide)).2.2⟩

/-- C4 counterexample: the claim says an attempt that finds no task fails
terminally, so the orchestrator schedules no further attempt — but the
raised `ValueError` is retried like any other error: on an empty store the
run performs all 3 attempts. -/
theorem C4_counterexample :
    findTask [] 1 = none ∧
    (workflowRun 1 []
      [AttemptOracle.mk ParseOutcome.ok (ExecOutcome.ok [("0", 1024)]) 5,
       AttemptOracle.mk ParseOutcome.ok (ExecOutcome.ok [("0", 1024)]) 6,
       AttemptOracle.mk ParseOutcome.ok (ExecOutcome.ok [("0", 1024)]) 7]).2.2
      = 3 := by
  decide

/-- C4 (amended): when the task id is absent from the store, every attempt
raises without changing the store (the handler's FAILED write finds no row
either), the run never succeeds, and the orchestrator keeps retrying until
the oracle sequence or the attempt budget runs out. -/
theorem C4_not_found_retried (db : Store) (tid : Nat)
    (oracles : List AttemptOracle) (n : Nat)
    (h : idAbsent db tid = true) :
    (runAttempts tid db oracles n).1 = db ∧
    (runAttempts tid db oracles n).2.1 = false ∧
    (runAttempts tid db oracles n).2.2 = min oracles.length n := by
  induction oracles generalizing n with
  | nil => cases n <;> simp [runAttempts]
  | cons o os ih =>
    cases n with
    | zero => simp [runAttempts]
    | succ n =>
      have hf : findTask db tid = none := findTask_of_absent h
      have hup : activityMarkFailed db tid o.now = db := updateFirst_of_absent h
      have hact : execute_quantum_circuit_activity db tid o.parse o.exec o.now
          = (db, AttemptResult.failure) := by
        simp [execute_quantum_circuit_activity, hf, hup]
      rw [runAttempts_failure_step tid db db o os n hact]
      rcases ih n with ⟨h1, h2, h3⟩
      refine ⟨h1, h2, ?_⟩
      simp only [List.length_cons]
      omega

theorem C4_not_found_retried_witness :
    idAbsent [newTask 2 0] 1 = true ∧
    (runAttempts 1 [newTask 2 0]
      [AttemptOracle.mk ParseOutcome.err ExecOutcome.err 5,
       AttemptOracle.mk ParseOutcome.err ExecOutcome.err 6] 3).2.2 = 2 := by
  refine ⟨by decide, ?_⟩
  have h := (C4_not_found_retried [newTask 2 0] 1
    [AttemptOracle.mk ParseOutcome.err ExecOutcome.err 5,
     AttemptOracle.mk ParseOutcome.err ExecOutcome.err 6] 3 (by decide)).2.2
  rw [h]
  decide

/-- C5: when the store write succeeds but the keyed workflow start fails,
the task is not rolled back — it is in the store with status `Pending` and
null result — and the caller receives exactly the same success response
(with the task id) as when the start succeeds; the start failure is never
surfaced. -/
theorem C5_submit_contract (db : Store) (tid now : Nat)
    (h : idAbsent db tid = true) :
    (create_task db tid now false).2 = (create_task db tid now true).2 ∧
    (create_task db tid now false).2.task_id = tid ∧
    (create_task db tid now false).2.message = "Task submitted successfully." ∧
    (create_task db tid now false).1 = db ++ [newTask tid now] ∧
    findTask (create_task db tid now false).1 tid = some (newTask tid now) ∧
    (newTask tid now).status = TaskStatus.pending ∧
    (newTask tid now).result = none := by
  refine ⟨rfl, rfl, rfl, rfl, ?_, rfl, rfl⟩
  have hid : ((newTask tid now).id == tid) = true := by simp [newTask]
  exact findTask_append_absent hid h

theorem C5_submit_contract_witness :
    idAbsent [] 1 = true ∧
    findTask (create_task [] 1 0 false).1 1 = some (newTask 1 0) ∧
    (create_task [] 1 0 false).2.message = "Task submitted successfully." :=
  ⟨by decide,
   (C5_submit_contract [] 1 0 (by decide)).2.2.2.2.1,
   (C5_submit_contract [] 1 0 (by decide)).2.2.1⟩

/-- C6 counterexample: the claim says every limit with `0 ≤ limit ≤ 100` is
accepted, but the handler declares `Query(50, ge=1, le=100)`: `limit = 0`
lies in the claimed range and is rejected. -/
theorem C6_counterexample :
    ((0 : Int) ≤ 0 ∧ (0 : Int) ≤ 100) ∧ limit_ok 0 = false := by
  decide

/-- C6 (amended): the list operation accepts exactly the limits with
`1 ≤ limit ≤ 100` (default 50) and exactly the offsets with `offset ≥ 0`;
everything outside those bounds is rejected. -/
theorem C6_limit_bounds (l o : Int) :
    LIMIT_DEFAULT = 50 ∧
    (limit_ok l = true ↔ 1 ≤ l ∧ l ≤ 100) ∧
    (offset_ok o = true ↔ 0 ≤ o) := by
  refine ⟨rfl, ?_, ?_⟩ <;> simp [limit_ok, offset_ok]

/-- C7: for every accepted list request, the page is ordered by creation
time newest first, holds at most `limit` items, every item matches the
status filter, and the reported total — the number of rows matching the
filter — is independent of `limit`/`offset` and at least the page
length. -/
theorem C7_list_contract (db : Store) (sf : Option TaskStatus)
    (limit offset limit2 offset2 : Nat) :
    (list_tasks db sf limit offset).1.length ≤ limit ∧
    (list_tasks db sf limit offset).1.length
      ≤ (list_tasks db sf limit offset).2 ∧
    (list_tasks db sf limit offset).2 = (list_tasks db sf limit2 offset2).2 ∧
    (list_tasks db sf limit offset).1.all (matchesFilter sf) = true ∧
    List.Pairwise (fun a b => b.created_at ≤ a.created_at)
      (list_tasks db sf limit offset).1 := by
  rw [list_tasks_def, list_tasks_def]
  have hsub :
      ((((db.filter (matchesFilter sf)).mergeSort createdDesc).drop offset).take
          limit).Sublist
        ((db.filter (matchesFilter sf)).mergeSort createdDesc) :=
    (List.take_sublist _ _).trans (List.drop_sublist _ _)
  refine ⟨List.length_take_le _ _, ?_, rfl, ?_, ?_⟩
  · calc ((((db.filter (matchesFilter sf)).mergeSort createdDesc).drop
            offset).take limit).length
        ≤ ((db.filter (matchesFilter sf)).mergeSort createdDesc).length :=
          hsub.length_le
      _ = (db.filter (matchesFilter sf)).length := List.length_mergeSort ..
  · simp only [List.all_eq_true]
    intro t ht
    have hmem : t ∈ (db.filter (matchesFilter sf)).mergeSort createdDesc :=
      hsub.subset ht
    rw [List.mem_mergeSort] at hmem
    exact (List.mem_filter.mp hmem).2
  · have htrans : ∀ a b c : Task, createdDesc a b = true →
        createdDesc b c = true → createdDesc a c = true := by
      intro a b c hab hbc
      simp only [createdDesc, decide_eq_true_eq] at hab hbc ⊢
      exact Nat.le_trans hbc hab
    have htotal : ∀ a b : Task, (createdDesc a b || createdDesc b a) = true := by
      intro a b
      simp only [createdDesc, Bool.or_eq_true, decide_eq_true_eq]
      exact Nat.le_total b.created_at a.created_at
    have hsorted := List.sorted_mergeSort htrans htotal
      (db.filter (matchesFilter sf))
    have hsorted2 : List.Pairwise (fun a b => b.created_at ≤ a.created_at)
        ((db.filter (matchesFilter sf)).mergeSort createdDesc) := by
      refine hsorted.imp ?_
      intro a b hab
      simpa [createdDesc] using hab
    exact hsorted2.sublist hsub

/-- C8: deleting an unknown id fails with NotFound and changes nothing; a
found `Pending` task triggers a cancellation attempt before the row is
removed, a found terminal task is removed without one; in every found
case the row is removed whether or not the cancellation succeeds, and a
subsequent get on the id answers NotFound. -/
theorem C8_delete_contract (db : Store) (tid : Nat) (c c2 : Bool) (t : Task)
    (hu : idsUnique db = true) :
    (findTask db tid = none → delete_task db tid c = (db, DeleteOutcome.notFound)) ∧
    (findTask db tid = some t →
      delete_task db tid c = delete_task db tid c2 ∧
      (delete_task db tid c).1 = removeFirst tid db ∧
      (delete_task db tid c).2
          = DeleteOutcome.deleted (t.status == TaskStatus.pending) ∧
      findTask (delete_task db tid c).1 tid = none ∧
      get_task (delete_task db tid c).1 tid = GetResult.notFound) := by
  have hdel : ∀ b : Bool, findTask db tid = some t →
      delete_task db tid b
        = (removeFirst tid db,
           DeleteOutcome.deleted (t.status == TaskStatus.pending)) := by
    intro b hf
    by_cases hp : (t.status == TaskStatus.pending) = true
    · cases b <;> simp [delete_task, hf, hp]
    · have hp2 : (t.status == TaskStatus.pending) = false := by
        simpa using hp
      cases b <;> simp [delete_task, hf, hp2]
  constructor
  · intro hf
    simp [delete_task, hf]
  · intro hf
    have hrm : findTask (removeFirst tid db) tid = none := findTask_removeFirst hu
    refine ⟨by rw [hdel c hf, hdel c2 hf], by rw [hdel c hf], by rw [hdel c hf],
      ?_, ?_⟩
    · rw [hdel c hf]
      exact hrm
    · rw [hdel c hf]
      simp [get_task, hrm]

theorem C8_delete_contract_witness :
    idsUnique [newTask 1 0] = true ∧
    findTask [newTask 1 0] 1 = some (newTask 1 0) ∧
    delete_task [newTask 1 0] 1 false
      = (([] : Store), DeleteOutcome.deleted true) ∧
    get_task (delete_task [newTask 1 0] 1 false).1 1 = GetResult.notFound := by
  refine ⟨by decide, by decide, by decide, ?_⟩
  exact ((C8_delete_contract [newTask 1 0] 1 false true (newTask 1 0)
    (by decide)).2 (by decide)).2.2.2.2

end QOrch
